import Mathlib

/-!
Verification development for the dependency-size analyzer in `src/fsize.py`
(class `LocalRequirementsAnalyzer` plus its helpers).  The Python source is
shallowly embedded below: pure computations become Lean functions, the
process state (the two size caches of the analyzer object) is threaded
explicitly, the external world (HTTP registries, the filesystem, the audit
subprocesses) is an explicit environment record, and Python exceptions that
escape a function become `Except` errors.
-/

/-- Record produced per requirement (dataclass `PackageInfo`, fsize.py lines
13-21).  `size` is a Python `int`, hence `Int` here. -/
structure PackageInfo where
  name : String
  size : Int
  is_paid : Bool := false
  version : String := ""
  description : String := ""
  latest_version : String := ""
  vulnerabilities : String := ""
deriving DecidableEq

/-- Result of `estimate_docker_sizes` (dataclass `DockerSizeInfo`, lines 23-27). -/
structure DockerSizeInfo where
  full : Int
  slim : Int
  alpine : Int
deriving DecidableEq

/-- Base image sizes for one ecosystem (one entry of `self.base_sizes`, lines 38-49). -/
structure BaseSizes where
  full : Int
  slim : Int
  alpine : Int
deriving DecidableEq

/-- The `self.base_sizes` dict (lines 38-49): maps the ecosystem tag to the
three variant base sizes; any other key is absent (a Python `KeyError`). -/
def baseSizes (package_type : String) : Option BaseSizes :=
  if package_type = "python" then
    some ⟨100 * 1024 * 1024, 40 * 1024 * 1024, 15 * 1024 * 1024⟩
  else if package_type = "node" then
    some ⟨85 * 1024 * 1024, 35 * 1024 * 1024, 12 * 1024 * 1024⟩
  else none

/-- The `self.known_paid_services` dict (lines 33-36). -/
def knownPaidServices (package_type : String) : Option (List String) :=
  if package_type = "python" then some ["private-package", "enterprise-pkg"]
  else if package_type = "node" then some ["private-module", "enterprise-pkg"]
  else none

/-- `_is_paid_package` (lines 166-168): exact membership in the per-ecosystem
set.  The source indexes the dict directly; both call sites pass the literal
string "python" or "node", so the missing-key branch is unreachable there and
is modelled as `false`. -/
def isPaidPackage (package_name package_type : String) : Bool :=
  match knownPaidServices package_type with
  | some s => package_name ∈ s
  | none => false

/-- Character class `[a-zA-Z0-9\-._]` of the requirements-line regex (line 72). -/
def isNameChar (c : Char) : Bool :=
  (('a' ≤ c && c ≤ 'z') || ('A' ≤ c && c ≤ 'Z') || ('0' ≤ c && c ≤ '9'))
    || c = '-' || c = '.' || c = '_'

/-- Character class `[=<>!]` of the requirements-line regex (line 72). -/
def isCmpChar (c : Char) : Bool :=
  c = '=' || c = '<' || c = '>' || c = '!'

/-- Python `str.strip()` on a line (line 70): drop leading and trailing
whitespace. -/
def pyStrip (l : List Char) : List Char :=
  ((l.dropWhile Char.isWhitespace).reverse.dropWhile Char.isWhitespace).reverse

/-- The regex match of line 72:
`re.match(r'^([a-zA-Z0-9\-._]+)(?:[=<>!]+([a-zA-Z0-9\-._]+))?', line)`.
`re.match` anchors at the start only; trailing unmatched text is ignored.
Group 1 is the maximal leading run of name characters (the two character
classes are disjoint, so greedy matching needs no backtracking); the optional
group needs one or more comparator characters followed by one or more name
characters, else it is not taken and the version group is `None`, which
line 75 (`version = version or ""`) turns into the empty string.  Returns
`none` when the regex does not match (first character not a name character). -/
def pyMatchLine (l : List Char) : Option (String × String) :=
  let name := l.takeWhile isNameChar
  if name.isEmpty then none
  else
    let rest := l.drop name.length
    let cmps := rest.takeWhile isCmpChar
    let ver := (rest.drop cmps.length).takeWhile isNameChar
    if cmps.isEmpty || ver.isEmpty then some (name.asString, "")
    else some (name.asString, ver.asString)

/-- One iteration of the parsing part of `_analyze_python_requirements`
(lines 69-76): strip the line, skip it when it is empty or starts with `#`,
otherwise run the regex; `some (name, version)` means a requirement record is
produced for the line. -/
def parsePythonLine (line : List Char) : Option (String × String) :=
  let l := pyStrip line
  if l.isEmpty then none
  else if l.head? = some '#' then none
  else pyMatchLine l

/-- `re.sub(r'^[^0-9]*', '', version)` (line 103): remove the maximal leading
run of non-digit characters from a node version string. -/
def cleanVersion (version : List Char) : List Char :=
  version.dropWhile (fun c => !(('0' ≤ c && c ≤ '9')))

/-- Left-biased choice on options (used to state lookup-after-append
lemmas). -/
def optOr {α : Type} : Option α → Option α → Option α
  | some w, _ => some w
  | none, d => d

/-- First-match lookup in an association list; Python dict lookup for dicts
built without duplicate keys. -/
def lookupAssoc {α : Type} : List (String × α) → String → Option α
  | [], _ => none
  | (k, v) :: rest, n => if k = n then some v else lookupAssoc rest n

/-- Python dict key assignment `d[k] = v`: overwrite in place when the key
exists, else append (insertion order is preserved). -/
def dictInsert {α : Type} (d : List (String × α)) (k : String) (v : α) :
    List (String × α) :=
  if d.any (fun p => p.1 = k) then
    d.map (fun p => if p.1 = k then (k, v) else p)
  else d ++ [(k, v)]

/-- Python `{**a, **b}` (line 100): copy `a`, then assign every pair of `b`
in order.  Keys of `a` keep their position, `b` wins on common keys, new keys
of `b` are appended in order. -/
def mergeDicts (a b : List (String × String)) : List (String × String) :=
  b.foldl (fun d p => dictInsert d p.1 p.2) a

/-- Loop body of `_check_for_conflicts` (lines 235-244): `vm` is the
`version_map` dict, `acc` the `conflicts` list accumulated so far. -/
def checkForConflictsGo (vm : List (String × String))
    (acc : List (String × String × String)) :
    List PackageInfo → List (String × String × String)
  | [] => acc
  | p :: rest =>
    match lookupAssoc vm p.name with
    | none => checkForConflictsGo (vm ++ [(p.name, p.version)]) acc rest
    | some v0 =>
      if v0 ≠ p.version then
        checkForConflictsGo vm (acc ++ [(p.name, v0, p.version)]) rest
      else checkForConflictsGo vm acc rest

/-- `_check_for_conflicts` (lines 235-244). -/
def checkForConflicts (package_list : List PackageInfo) :
    List (String × String × String) :=
  checkForConflictsGo [] [] package_list

/-- Version of the first occurrence of name `n` in the prefix `pre`, if any. -/
def firstVersion : List PackageInfo → String → Option String
  | [], _ => none
  | p :: rest, n => if p.name = n then some p.version else firstVersion rest n

/-- Conflict detection as the specification states it: walk the sequence in
order; a later occurrence of a name is compared against the version of the
first occurrence (which is never updated); each differing later occurrence
emits one record, an equal one emits none. -/
def specConflictsGo (pre : List PackageInfo) :
    List PackageInfo → List (String × String × String)
  | [] => []
  | p :: rest =>
    match firstVersion pre p.name with
    | none => specConflictsGo (pre ++ [p]) rest
    | some v0 =>
      (if v0 ≠ p.version then [(p.name, v0, p.version)] else [])
        ++ specConflictsGo (pre ++ [p]) rest

/-- Specification-style conflict detection over a whole list. -/
def specConflicts (l : List PackageInfo) : List (String × String × String) :=
  specConflictsGo [] l

/-- Round the natural `u` to the nearest multiple of `2 ^ s`, ties to the
even multiple (the IEEE-754 rounding step, on mantissa-scaled integers). -/
def roundNearestEven (u : Nat) (s : Nat) : Nat :=
  if s = 0 then u
  else
    let q := u / 2 ^ s
    let r := u % 2 ^ s
    if r < 2 ^ (s - 1) then q * 2 ^ s
    else if 2 ^ (s - 1) < r then (q + 1) * 2 ^ s
    else if q % 2 = 0 then q * 2 ^ s else (q + 1) * 2 ^ s

/-- Fuelled binary logarithm (structurally recursive so that it reduces in
the kernel): `log2Go f m` is the floor of log2 of `m` whenever `m ≤ f`. -/
def log2Go : Nat → Nat → Nat
  | 0, _ => 0
  | f + 1, m => if m ≤ 1 then 0 else log2Go f (m / 2) + 1

/-- Floor of the binary logarithm of a positive natural. -/
def natLog2 (n : Nat) : Nat := log2Go n n

/-- Round a natural (read at any fixed power-of-two scale) to 53 significant
bits: the IEEE-754 binary64 rounding of a dyadic rational, ignoring overflow
(binary64 overflows only beyond 2^1024, far outside this program's sizes)
and underflow (inputs here are integers at a fixed scale). -/
def flD (u : Nat) : Nat :=
  if u < 2 ^ 53 then u else roundNearestEven u (natLog2 u - 52)

/-- Mantissa of the binary64 double nearest to the literal `0.15`, scaled by
`2 ^ 55`: the double value of `0.15` is `5404319552844595 / 2 ^ 55`. -/
def double015Num : Nat := 5404319552844595

/-- Python `int(T * 0.15)` for a non-negative int `T` (line 226): `T` is
converted to a double, multiplied by the double `0.15` with one rounding, and
the result is truncated toward zero (= floored, as it is non-negative).  The
value is exact integer arithmetic on mantissas: `flD T * double015Num` is the
exact product scaled by `2 ^ 55`, `flD` of it is the rounded product, and the
division by `2 ^ 55` floors. -/
def pyOverheadNat (T : Nat) : Nat :=
  flD (flD T * double015Num) / 2 ^ 55

/-- Python `int(T * 0.15)` on a possibly negative int (line 226): `int()`
truncates toward zero and binary64 rounding is symmetric around zero. -/
def pyInt015 (T : Int) : Int :=
  if 0 ≤ T then (pyOverheadNat T.toNat : Int) else -(pyOverheadNat (-T).toNat : Int)

/-- `estimate_docker_sizes` (lines 223-232).  Indexing `self.base_sizes` with
an unknown `package_type` raises `KeyError` in Python, hence the `Option`. -/
def estimateDockerSizes (packages : List PackageInfo) (package_type : String) :
    Option DockerSizeInfo :=
  (baseSizes package_type).map fun base =>
    let packages_size := (packages.map (fun p => p.size)).sum
    let overhead := pyInt015 packages_size
    ⟨base.full + packages_size + overhead,
     base.slim + packages_size + overhead,
     base.alpine + packages_size + overhead⟩

/-- The total `sum(pkg.size for pkg in packages)` of line 225, as a named
quantity for the statements below. -/
def totalSize (packages : List PackageInfo) : Int :=
  (packages.map (fun p => p.size)).sum

/-- Outcome, as observed by the analyzer, of one `requests.get` call plus the
reads of its JSON payload.  `err` is an exception raised by the request or
while reading the payload (timeout, connection error, malformed JSON, a
missing dict key accessed with `[]`): in every registry helper of the source
such an exception is caught by the surrounding `try`/`except`, printed, and
the function falls through to its sentinel return.  `notOk` is a response
whose `status_code` is not 200.  `ok` carries the successfully read payload. -/
inductive HttpResult (α : Type) where
  | err : HttpResult α
  | notOk : HttpResult α
  | ok (payload : α) : HttpResult α
deriving DecidableEq

/-- One file entry of a PyPI release (`data['releases'][v]` element):
the fields read on lines 136-141. -/
structure PyPiFile where
  packagetype : String
  size : Int
deriving DecidableEq

/-- The parts of a PyPI JSON response read by `_get_pypi_package_size`
(lines 130-141): `infoVersion` is `data['info']['version']` when the guard
`'info' in data and 'version' in data['info']` (line 132) passes, else
`none`; `releases` is the `data['releases']` dict. -/
structure PyPiResponse where
  infoVersion : Option String
  releases : List (String × List PyPiFile)
deriving DecidableEq

/-- The `dist` dict of one npm version (`version_data['dist']`, line 159):
`.get('unpackedSize', ...)` then `.get('size', 0)`. -/
structure NpmVersionDist where
  unpackedSize : Option Int
  size : Option Int
deriving DecidableEq

/-- The parts of an npm registry JSON response read by
`_get_npm_package_size` (lines 154-161). -/
structure NpmResponse where
  distTags : List (String × String)
  versions : List (String × NpmVersionDist)
deriving DecidableEq

/-- A node manifest as read by `_analyze_node_requirements` (line 100):
the two dependency dicts (`.get` with `{}` default covers absence). -/
structure NodeManifest where
  dependencies : List (String × String)
  devDependencies : List (String × String)
deriving DecidableEq

/-- Outcome of `json.load` on a package.json file (lines 98-99):
`malformed` is the `json.JSONDecodeError` case. -/
inductive ParseOutcome where
  | malformed : ParseOutcome
  | parsed (manifest : NodeManifest) : ParseOutcome
deriving DecidableEq

/-- A manifest file on disk, carrying both decodings the analyzer may apply
to its raw bytes: its text lines (the python branch) and its JSON parse
outcome (the node branch). -/
structure RawFile where
  lines : List (List Char)
  json : ParseOutcome

/-- The external world of one analysis run: the filesystem (`none` means
`os.path.exists` is false), the two registries (one entry per helper, since
each helper issues its own request and reads different fields), and the two
audit subprocesses.  For the subprocesses, `some s` is the decoded stdout of
a completed `subprocess.run` (line 195/197) and `none` means `subprocess.run`
itself raised an `OSError` (for example the executable is missing); that call
is not guarded by any `try`/`except` in the source. -/
structure Env where
  fs : String → Option RawFile
  pypiSizeResp : String → HttpResult PyPiResponse
  npmSizeResp : String → HttpResult NpmResponse
  pypiDescResp : String → HttpResult (Option String)
  npmDescResp : String → HttpResult (Option String)
  pypiVerResp : String → HttpResult (Option String)
  npmVerResp : String → HttpResult (Option String)
  safetyRun : String → Option String
  npmAudit : String → Option String

/-- The two size caches of the analyzer object (`self.pypi_cache`,
`self.npm_cache`, lines 31-32), as Python dicts. -/
structure Caches where
  pypi : List (String × Int)
  npm : List (String × Int)
deriving DecidableEq

/-- The caches of a freshly constructed analyzer (lines 31-32). -/
def emptyCaches : Caches := ⟨[], []⟩

/-- Size selection of lines 136-141: first wheel file, else first sdist
file, else 0. -/
def pypiFileSize (files : List PyPiFile) : Int :=
  match files.filter (fun f => f.packagetype = "bdist_wheel") with
  | f :: _ => f.size
  | [] =>
    match files.filter (fun f => f.packagetype = "sdist") with
    | f :: _ => f.size
    | [] => 0

/-- The uncached part of `_get_pypi_package_size` (lines 128-146): `some s`
when control reaches the cache write on line 142 (with `s` the size computed
on lines 136-141), `none` on every path that falls through to `return 0`
(exception, non-200 status, failed guard on line 132, latest version absent
from the releases dict). -/
def pypiFetch (env : Env) (package_name : String) : Option Int :=
  match env.pypiSizeResp package_name with
  | .err => none
  | .notOk => none
  | .ok r =>
    match r.infoVersion with
    | none => none
    | some latest =>
      match lookupAssoc r.releases latest with
      | none => none
      | some files => some (pypiFileSize files)

/-- `_get_pypi_package_size` (lines 124-146): cache hit returns the cached
size; otherwise the registry is consulted, a successful lookup is cached and
returned, a failed one returns 0 without caching.  The third component
counts the underlying registry lookups issued by this call (0 or 1). -/
def getPypiSize (env : Env) (st : Caches) (package_name : String) :
    Int × Caches × Nat :=
  match lookupAssoc st.pypi package_name with
  | some s => (s, st, 0)
  | none =>
    match pypiFetch env package_name with
    | some s => (s, { st with pypi := dictInsert st.pypi package_name s }, 1)
    | none => (0, st, 1)

/-- The uncached part of `_get_npm_package_size` (lines 152-164): `some s`
when control reaches the cache write on line 160, `none` on every path that
falls through to `return 0` (exception, non-200 status, empty or missing
`latest` dist-tag, latest version absent from the versions dict). -/
def npmFetch (env : Env) (package_name : String) : Option Int :=
  match env.npmSizeResp package_name with
  | .err => none
  | .notOk => none
  | .ok r =>
    let latest := (lookupAssoc r.distTags "latest").getD ""
    if latest = "" then none
    else
      match lookupAssoc r.versions latest with
      | none => none
      | some dist => some (dist.unpackedSize.getD (dist.size.getD 0))

/-- `_get_npm_package_size` (lines 148-164), shaped like `getPypiSize`. -/
def getNpmSize (env : Env) (st : Caches) (package_name : String) :
    Int × Caches × Nat :=
  match lookupAssoc st.npm package_name with
  | some s => (s, st, 0)
  | none =>
    match npmFetch env package_name with
    | some s => (s, { st with npm := dictInsert st.npm package_name s }, 1)
    | none => (0, st, 1)

/-- `_get_pypi_package_description` (lines 170-179): the payload is
`data['info'].get('description', ...)`; every failure path yields the
sentinel. -/
def getPypiPackageDescription (env : Env) (package_name : String) : String :=
  match env.pypiDescResp package_name with
  | .ok d => d.getD "No description available"
  | _ => "No description available"

/-- `_get_npm_package_description` (lines 181-190). -/
def getNpmPackageDescription (env : Env) (package_name : String) : String :=
  match env.npmDescResp package_name with
  | .ok d => d.getD "No description available"
  | _ => "No description available"

/-- `_get_latest_pypi_version` (lines 201-210): `data['info']['version']`;
a missing key raises and is caught (`ok none`), yielding the sentinel `""`. -/
def getLatestPypiVersion (env : Env) (package_name : String) : String :=
  match env.pypiVerResp package_name with
  | .ok (some v) => v
  | _ => ""

/-- `_get_latest_npm_version` (lines 212-221). -/
def getLatestNpmVersion (env : Env) (package_name : String) : String :=
  match env.npmVerResp package_name with
  | .ok (some v) => v
  | _ => ""

/-- Errors that escape the analysis entry points: `FileNotFoundError`
(line 56), `ValueError` for an unknown file type (line 63), and an uncaught
`OSError` escaping the unguarded `subprocess.run` of
`_check_security_vulnerabilities` (lines 195/197). -/
inductive AnalyzeError where
  | fileNotFound (path : String) : AnalyzeError
  | unsupportedFileType : AnalyzeError
  | auditProcessError : AnalyzeError
deriving DecidableEq

/-- `_check_security_vulnerabilities` (lines 192-199): runs the audit
subprocess and strips its decoded stdout.  The `subprocess.run` call is not
wrapped in `try`/`except`, so an `OSError` raised by it (missing executable)
propagates to the caller. -/
def checkSecurityVulnerabilities (env : Env)
    (package_name package_type : String) : Except AnalyzeError String :=
  if package_type = "python" then
    match env.safetyRun package_name with
    | some out => .ok (pyStrip out.data).asString
    | none => .error .auditProcessError
  else if package_type = "node" then
    match env.npmAudit package_name with
    | some out => .ok (pyStrip out.data).asString
    | none => .error .auditProcessError
  else .ok "No security audit available"

/-- Loop of `_analyze_python_requirements` (lines 69-91): each matching line
is resolved into a `PackageInfo`.  The caches are threaded through; an
exception escaping the audit call aborts the loop (the caches keep the
updates already made, since they live on the analyzer object, but the
partial results list is lost). -/
def analyzePythonRequirements (env : Env) (st : Caches) :
    List (List Char) → Caches × Except AnalyzeError (List PackageInfo)
  | [] => (st, .ok [])
  | line :: rest =>
    match parsePythonLine line with
    | none => analyzePythonRequirements env st rest
    | some (package_name, version) =>
      let szst := getPypiSize env st package_name
      let is_paid := isPaidPackage package_name "python"
      let description := getPypiPackageDescription env package_name
      let latest_version := getLatestPypiVersion env package_name
      match checkSecurityVulnerabilities env package_name "python" with
      | .error e => (szst.2.1, .error e)
      | .ok vulnerabilities =>
        match analyzePythonRequirements env szst.2.1 rest with
        | (st2, .ok pkgs) =>
          (st2, .ok (⟨package_name, szst.1, is_paid, version, description,
            latest_version, vulnerabilities⟩ :: pkgs))
        | (st2, .error e) => (st2, .error e)

/-- Loop of `_analyze_node_requirements` (lines 102-118) over the merged
dependency dict. -/
def resolveNodeList (env : Env) (st : Caches) :
    List (String × String) → Caches × Except AnalyzeError (List PackageInfo)
  | [] => (st, .ok [])
  | (package_name, version) :: rest =>
    let clean_version := (cleanVersion version.data).asString
    let szst := getNpmSize env st package_name
    let is_paid := isPaidPackage package_name "node"
    let description := getNpmPackageDescription env package_name
    let latest_version := getLatestNpmVersion env package_name
    match checkSecurityVulnerabilities env package_name "node" with
    | .error e => (szst.2.1, .error e)
    | .ok vulnerabilities =>
      match resolveNodeList env szst.2.1 rest with
      | (st2, .ok pkgs) =>
        (st2, .ok (⟨package_name, szst.1, is_paid, clean_version, description,
          latest_version, vulnerabilities⟩ :: pkgs))
      | (st2, .error e) => (st2, .error e)

/-- `_analyze_node_requirements` (lines 94-122).  A `json.JSONDecodeError`
is caught on line 119: the function prints a message and returns the empty
list, exactly as for a well-formed manifest declaring no packages. -/
def analyzeNodeRequirements (env : Env) (st : Caches) (file : ParseOutcome) :
    Caches × Except AnalyzeError (List PackageInfo) :=
  match file with
  | .malformed => (st, .ok [])
  | .parsed m => resolveNodeList env st (mergeDicts m.dependencies m.devDependencies)

/-- `analyze_requirements` (lines 53-63): existence check first, then
dispatch on the file type; unknown types raise `ValueError`. -/
def analyzeRequirements (env : Env) (st : Caches) (file_path file_type : String) :
    Caches × Except AnalyzeError (List PackageInfo) :=
  match env.fs file_path with
  | none => (st, .error (.fileNotFound file_path))
  | some file =>
    if file_type = "python" then analyzePythonRequirements env st file.lines
    else if file_type = "node" then analyzeNodeRequirements env st file.json
    else (st, .error .unsupportedFileType)

/-- `analyze_multiple_projects` (lines 254-260): sequential analysis of each
path, concatenating the package lists; the first exception aborts the loop
and the partial `all_packages` list is lost. -/
def analyzeMultipleProjects (env : Env) (st : Caches) :
    List String → String → Caches × Except AnalyzeError (List PackageInfo)
  | [], _ => (st, .ok [])
  | path :: rest, file_type =>
    match analyzeRequirements env st path file_type with
    | (st1, .ok pkgs) =>
      match analyzeMultipleProjects env st1 rest file_type with
      | (st2, .ok more) => (st2, .ok (pkgs ++ more))
      | (st2, .error e) => (st2, .error e)
    | (st1, .error e) => (st1, .error e)

/-- An environment where every registry request fails (for example times
out), both audit subprocesses complete with empty output, and no file
exists. -/
def envEmpty : Env where
  fs := fun _ => none
  pypiSizeResp := fun _ => .err
  npmSizeResp := fun _ => .err
  pypiDescResp := fun _ => .err
  npmDescResp := fun _ => .err
  pypiVerResp := fun _ => .err
  npmVerResp := fun _ => .err
  safetyRun := fun _ => some ""
  npmAudit := fun _ => some ""

/-- An environment identical to `envEmpty` except that the `safety`
executable is missing, so the unguarded `subprocess.run` on line 195 raises
`FileNotFoundError` (an `OSError`). -/
def envNoSafety : Env := { envEmpty with safetyRun := fun _ => none }

/-- An environment where every PyPI size lookup succeeds with a single
42-byte wheel, used to exercise the cache. -/
def envPypi42 : Env :=
  { envEmpty with
    pypiSizeResp := fun _ =>
      .ok ⟨some "1.0", [("1.0", [⟨"bdist_wheel", 42⟩])]⟩ }

/-- C7: parsing the python manifest line "flask==2.0.1" yields name "flask"
with version constraint "2.0.1"; parsing "flask" yields name "flask" with an
empty constraint; a blank line or a line starting with a comment marker
yields no record. -/
theorem python_parse_examples :
    parsePythonLine "flask==2.0.1".data = some ("flask", "2.0.1") ∧
    parsePythonLine "flask".data = some ("flask", "") ∧
    parsePythonLine "".data = none ∧
    parsePythonLine "   ".data = none ∧
    parsePythonLine "# flask==2.0.1".data = none := by
  refine ⟨by decide, by decide, by decide, by decide, by decide⟩

/-- C2 counterexample: a node manifest whose content is malformed JSON does
NOT fail: `_analyze_node_requirements` catches the decode error, prints a
message and returns the empty list, which is exactly the result for a
well-formed manifest that declares no packages — no error reaches the
caller and the two cases are indistinguishable. -/
theorem node_malformed_no_error :
    analyzeNodeRequirements envEmpty emptyCaches ParseOutcome.malformed
      = (emptyCaches, Except.ok []) ∧
    analyzeNodeRequirements envEmpty emptyCaches
        (ParseOutcome.parsed ⟨[], []⟩)
      = (emptyCaches, Except.ok []) := ⟨rfl, rfl⟩

/-- C2 amended: for every environment and cache state, a malformed node
manifest yields the empty package list with no error surfaced (the decode
error is caught and only printed), identical to the result for a well-formed
manifest with no dependency entries. -/
theorem node_malformed_swallowed (env : Env) (st : Caches) :
    analyzeNodeRequirements env st ParseOutcome.malformed
      = (st, Except.ok []) ∧
    analyzeNodeRequirements env st (ParseOutcome.parsed ⟨[], []⟩)
      = (st, Except.ok []) := ⟨rfl, rfl⟩

/-- C1: evaluation of the code at the failing input.  In an environment
where the `safety` executable is missing, the unguarded `subprocess.run` in
`_check_security_vulnerabilities` raises, the exception escapes the
per-requirement resolution, and the analysis of the whole requirements list
["flask", "numpy"] aborts with the error instead of producing any
`PackageInfo` — contradicting the claim that resolution never raises and
that one lookup failure never prevents the other packages from being
resolved. -/
theorem audit_exception_escapes_resolution :
    (analyzePythonRequirements envNoSafety emptyCaches
        ["flask".data, "numpy".data]).2
      = Except.error AnalyzeError.auditProcessError := by
  rfl

/-- Helper for C8: if any path of the list is missing, the multi-project
analysis surfaces an error (whichever abort happens first); no package list
is returned. -/
theorem analyzeMultipleProjects_error_of_missing (env : Env) :
    ∀ (paths : List String) (st : Caches) (file_type : String),
      (∃ p ∈ paths, env.fs p = none) →
      ∃ e, (analyzeMultipleProjects env st paths file_type).2 = Except.error e := by
  intro paths
  induction paths with
  | nil => intro st file_type h; rcases h with ⟨p, hp, _⟩; cases hp
  | cons q rest ih =>
    intro st file_type h
    show ∃ e, (match analyzeRequirements env st q file_type with
      | (st1, .ok pkgs) =>
        match analyzeMultipleProjects env st1 rest file_type with
        | (st2, .ok more) => (st2, Except.ok (pkgs ++ more))
        | (st2, .error e) => (st2, Except.error e)
      | (st1, .error e) => (st1, Except.error e)).2 = Except.error e
    rcases hq : analyzeRequirements env st q file_type with ⟨st1, r⟩
    cases r with
    | error e => exact ⟨e, rfl⟩
    | ok pkgs =>
      have hrest : ∃ p ∈ rest, env.fs p = none := by
        rcases h with ⟨p, hp, hnone⟩
        rcases List.mem_cons.mp hp with h1 | h2
        · have hqnone : env.fs q = none := h1 ▸ hnone
          rw [show analyzeRequirements env st q file_type
              = (st, Except.error (AnalyzeError.fileNotFound q)) from by
            unfold analyzeRequirements; rw [hqnone]] at hq
          cases hq
        · exact ⟨p, h2, hnone⟩
      rcases ih st1 file_type hrest with ⟨e, he⟩
      rcases hr : analyzeMultipleProjects env st1 rest file_type with ⟨st2, r2⟩
      rw [hr] at he
      cases r2 with
      | error e2 =>
        refine ⟨e2, ?_⟩
        show (match analyzeMultipleProjects env st1 rest file_type with
          | (st2, .ok more) => (st2, Except.ok (pkgs ++ more))
          | (st2, .error e) => (st2, Except.error e)).2 = Except.error e2
        rw [hr]
      | ok more => cases he

/-- C8: analysis fails with the file-not-found error when the given path
does not exist, and with the unsupported-type error when the file type is
neither "python" nor "node"; both are surfaced to the caller, and a missing
path anywhere in a multi-project analysis yields an error with no partial
package list. -/
theorem analyze_error_reporting (env : Env) (st : Caches)
    (paths : List String) (file_type path : String) :
    (env.fs path = none →
      analyzeRequirements env st path file_type
        = (st, Except.error (AnalyzeError.fileNotFound path))) ∧
    (file_type ≠ "python" → file_type ≠ "node" →
      ∀ f, env.fs path = some f →
      analyzeRequirements env st path file_type
        = (st, Except.error AnalyzeError.unsupportedFileType)) ∧
    ((∃ p ∈ paths, env.fs p = none) →
      ∃ e, (analyzeMultipleProjects env st paths file_type).2
        = Except.error e) ∧
    (env.fs path = none →
      analyzeMultipleProjects env st [path] "python"
        = (st, Except.error (AnalyzeError.fileNotFound path))) := by
  refine ⟨?_, ?_, ?_, ?_⟩
  · intro h; unfold analyzeRequirements; rw [h]
  · intro h1 h2 f hf
    unfold analyzeRequirements
    rw [hf]
    simp only [if_neg h1, if_neg h2]
  · exact analyzeMultipleProjects_error_of_missing env paths st file_type
  · intro h
    show (match analyzeRequirements env st path "python" with
      | (st1, .ok pkgs) =>
        match analyzeMultipleProjects env st1 [] "python" with
        | (st2, .ok more) => (st2, Except.ok (pkgs ++ more))
        | (st2, .error e) => (st2, Except.error e)
      | (st1, .error e) => (st1, Except.error e))
      = (st, Except.error (AnalyzeError.fileNotFound path))
    rw [show analyzeRequirements env st path "python"
        = (st, Except.error (AnalyzeError.fileNotFound path)) from by
      unfold analyzeRequirements; rw [h]]

/-- C8 witness: in the environment with no files, analyzing the single path
"missing.txt" as python fails with the file-not-found error, both through
`analyze_requirements` and through `analyze_multiple_projects`. -/
theorem analyze_error_reporting_witness :
    analyzeRequirements envEmpty emptyCaches "missing.txt" "python"
      = (emptyCaches, Except.error (AnalyzeError.fileNotFound "missing.txt")) ∧
    analyzeMultipleProjects envEmpty emptyCaches ["missing.txt"] "python"
      = (emptyCaches, Except.error (AnalyzeError.fileNotFound "missing.txt")) :=
  ⟨(analyze_error_reporting envEmpty emptyCaches [] "python" "missing.txt").1 rfl,
   (analyze_error_reporting envEmpty emptyCaches [] "python"
      "missing.txt").2.2.2 rfl⟩

/-- Helper: the modelled `int(T * 0.15)` is non-negative for non-negative
`T`. -/
theorem pyInt015_nonneg (T : Int) (h : 0 ≤ T) : 0 ≤ pyInt015 T := by
  unfold pyInt015
  rw [if_pos h]
  exact Int.ofNat_nonneg _

/-- C9: when every package size is non-negative, each field of the size
estimate is at least the corresponding ecosystem base size. -/
theorem estimate_ge_base (packages : List PackageInfo) (package_type : String)
    (base : BaseSizes) (est : DockerSizeInfo)
    (hb : baseSizes package_type = some base)
    (he : estimateDockerSizes packages package_type = some est)
    (hpos : ∀ p ∈ packages, 0 ≤ p.size) :
    base.full ≤ est.full ∧ base.slim ≤ est.slim ∧ base.alpine ≤ est.alpine := by
  unfold estimateDockerSizes at he
  rw [hb] at he
  rw [Option.map_some'] at he
  have hT : 0 ≤ (packages.map (fun p => p.size)).sum := by
    apply List.sum_nonneg
    intro x hx
    rcases List.mem_map.mp hx with ⟨p, hp, hpx⟩
    exact hpx ▸ hpos p hp
  have hov := pyInt015_nonneg _ hT
  obtain rfl : est = _ := (Option.some.inj he).symm
  refine ⟨?_, ?_, ?_⟩ <;> · show _ ≤ _ + _ + _; omega

/-- Helper: association lookup after appending a single pair at the end. -/
theorem lookupAssoc_append_single {α : Type} (d : List (String × α))
    (k : String) (v : α) (n : String) :
    lookupAssoc (d ++ [(k, v)]) n
      = optOr (lookupAssoc d n) (if k = n then some v else none) := by
  induction d with
  | nil => rfl
  | cons p rest ih =>
    rcases p with ⟨k0, v0⟩
    show (if k0 = n then some v0 else lookupAssoc (rest ++ [(k, v)]) n)
      = optOr (if k0 = n then some v0 else lookupAssoc rest n)
          (if k = n then some v else none)
    by_cases h : k0 = n
    · rw [if_pos h, if_pos h]; rfl
    · rw [if_neg h, if_neg h, ih]

/-- Helper: first-occurrence version after appending one package at the end. -/
theorem firstVersion_append_single (pre : List PackageInfo) (p : PackageInfo)
    (n : String) :
    firstVersion (pre ++ [p]) n
      = optOr (firstVersion pre n)
          (if p.name = n then some p.version else none) := by
  induction pre with
  | nil => rfl
  | cons q rest ih =>
    show (if q.name = n then some q.version else firstVersion (rest ++ [p]) n)
      = optOr (if q.name = n then some q.version else firstVersion rest n)
          (if p.name = n then some p.version else none)
    by_cases h : q.name = n
    · rw [if_pos h, if_pos h]; rfl
    · rw [if_neg h, if_neg h, ih]

/-- Helper for C4: the source loop of `_check_for_conflicts` computes exactly
the specification-style first-seen comparison, provided the version map holds
the first-seen versions of the already processed prefix. -/
theorem checkForConflictsGo_eq_spec :
    ∀ (l : List PackageInfo) (vm : List (String × String))
      (acc : List (String × String × String)) (pre : List PackageInfo),
      (∀ n, lookupAssoc vm n = firstVersion pre n) →
      checkForConflictsGo vm acc l = acc ++ specConflictsGo pre l := by
  intro l
  induction l with
  | nil => intro vm acc pre _; simp [checkForConflictsGo, specConflictsGo]
  | cons p rest ih =>
    intro vm acc pre hinv
    have hl : lookupAssoc vm p.name = firstVersion pre p.name := hinv p.name
    show (match lookupAssoc vm p.name with
      | none => checkForConflictsGo (vm ++ [(p.name, p.version)]) acc rest
      | some v0 =>
        if v0 ≠ p.version then
          checkForConflictsGo vm (acc ++ [(p.name, v0, p.version)]) rest
        else checkForConflictsGo vm acc rest)
      = acc ++ (match firstVersion pre p.name with
      | none => specConflictsGo (pre ++ [p]) rest
      | some v0 =>
        (if v0 ≠ p.version then [(p.name, v0, p.version)] else [])
          ++ specConflictsGo (pre ++ [p]) rest)
    cases hfv : firstVersion pre p.name with
    | none =>
      rw [hfv] at hl
      rw [hl]
      show checkForConflictsGo (vm ++ [(p.name, p.version)]) acc rest
        = acc ++ specConflictsGo (pre ++ [p]) rest
      refine ih _ acc _ (fun n => ?_)
      rw [lookupAssoc_append_single, firstVersion_append_single, hinv n]
    | some v0 =>
      rw [hfv] at hl
      rw [hl]
      have hinv2 : ∀ n, lookupAssoc vm n = firstVersion (pre ++ [p]) n := by
        intro n
        rw [firstVersion_append_single, hinv n]
        cases hfn : firstVersion pre n with
        | some w => rfl
        | none =>
          by_cases hpn : p.name = n
          · rw [hpn] at hfv; rw [hfv] at hfn; cases hfn
          · rw [if_neg hpn]; rfl
      show (if v0 ≠ p.version then
          checkForConflictsGo vm (acc ++ [(p.name, v0, p.version)]) rest
        else checkForConflictsGo vm acc rest)
        = acc ++ ((if v0 ≠ p.version then [(p.name, v0, p.version)] else [])
          ++ specConflictsGo (pre ++ [p]) rest)
      by_cases hv : v0 ≠ p.version
      · rw [if_pos hv, if_pos hv, ih _ _ _ hinv2, List.append_assoc]
      · rw [if_neg hv, if_neg hv, ih _ _ _ hinv2, List.nil_append]

/-- C4: conflict detection compares each later occurrence of a name against
the first-seen version only (never updated), emitting one record per
differing later occurrence and none for an equal one; on the input
x-1.0, y-2.0, x-1.0, x-2.0 it yields exactly the record (x, 1.0, 2.0); three
distinct versions of one name yield the two records 2nd-vs-1st and
3rd-vs-1st; the comparison is exact string inequality, so empty-vs-nonempty
counts as a conflict. -/
theorem conflicts_first_seen (l : List PackageInfo) (n v1 v2 v3 : String) :
    checkForConflicts l = specConflicts l ∧
    checkForConflicts
        [⟨"x", 0, false, "1.0", "", "", ""⟩, ⟨"y", 0, false, "2.0", "", "", ""⟩,
         ⟨"x", 0, false, "1.0", "", "", ""⟩, ⟨"x", 0, false, "2.0", "", "", ""⟩]
      = [("x", "1.0", "2.0")] ∧
    (v1 ≠ v2 → v1 ≠ v3 →
      checkForConflicts
          [⟨n, 0, false, v1, "", "", ""⟩, ⟨n, 0, false, v2, "", "", ""⟩,
           ⟨n, 0, false, v3, "", "", ""⟩]
        = [(n, v1, v2), (n, v1, v3)]) ∧
    checkForConflicts
        [⟨n, 0, false, v1, "", "", ""⟩, ⟨n, 0, false, v1, "", "", ""⟩] = [] ∧
    (v1 ≠ "" →
      checkForConflicts
          [⟨n, 0, false, "", "", "", ""⟩, ⟨n, 0, false, v1, "", "", ""⟩]
        = [(n, "", v1)]) := by
  refine ⟨?_, by decide, ?_, ?_, ?_⟩
  · exact checkForConflictsGo_eq_spec l [] [] [] (fun _ => rfl)
  · intro h12 h13
    simp [checkForConflicts, checkForConflictsGo, lookupAssoc, h12, h13]
  · simp [checkForConflicts, checkForConflictsGo, lookupAssoc]
  · intro h1
    simp [checkForConflicts, checkForConflictsGo, lookupAssoc, (Ne.symm h1)]

/-- C4 witness: the schematic parts of `conflicts_first_seen` instantiated
concretely: versions 1.0, 2.0, 3.0 of one package produce the two records
2nd-vs-1st and 3rd-vs-1st, and an empty first version conflicts with a
non-empty later one. -/
theorem conflicts_first_seen_witness :
    checkForConflicts
        [⟨"p", 0, false, "1.0", "", "", ""⟩, ⟨"p", 0, false, "2.0", "", "", ""⟩,
         ⟨"p", 0, false, "3.0", "", "", ""⟩]
      = [("p", "1.0", "2.0"), ("p", "1.0", "3.0")] ∧
    checkForConflicts
        [⟨"p", 0, false, "", "", "", ""⟩, ⟨"p", 0, false, "2.0", "", "", ""⟩]
      = [("p", "", "2.0")] :=
  ⟨(conflicts_first_seen [] "p" "1.0" "2.0" "3.0").2.2.1
      (by decide) (by decide),
   (conflicts_first_seen [] "p" "2.0" "" "").2.2.2.2 (by decide)⟩

/-- Helper: a key that fails the membership test of `dictInsert` is absent. -/
theorem lookupAssoc_eq_none_of_any_false {α : Type} :
    ∀ (d : List (String × α)) (k : String),
      d.any (fun p => p.1 = k) = false → lookupAssoc d k = none := by
  intro d k
  induction d with
  | nil => intro _; rfl
  | cons p rest ih =>
    rcases p with ⟨k0, v0⟩
    intro h
    rw [List.any_cons] at h
    rcases Bool.or_eq_false_iff.mp h with ⟨h1, h2⟩
    show (if k0 = k then some v0 else lookupAssoc rest k) = none
    rw [if_neg (by simpa using h1)]
    exact ih h2

/-- Helper: a key absent from the key list is absent from the lookup. -/
theorem lookupAssoc_eq_none_of_not_mem {α : Type} :
    ∀ (d : List (String × α)) (k : String),
      k ∉ d.map Prod.fst → lookupAssoc d k = none := by
  intro d k
  induction d with
  | nil => intro _; rfl
  | cons p rest ih =>
    rcases p with ⟨k0, v0⟩
    intro h
    rw [List.map_cons, List.mem_cons] at h
    push_neg at h
    show (if k0 = k then some v0 else lookupAssoc rest k) = none
    rw [if_neg (fun he => h.1 he.symm)]
    exact ih h.2

/-- Helper: a key that passes the membership test of `dictInsert` is
present. -/
theorem lookupAssoc_ne_none_of_any {α : Type} :
    ∀ (d : List (String × α)) (k : String),
      d.any (fun p => p.1 = k) = true → lookupAssoc d k ≠ none := by
  intro d k
  induction d with
  | nil => intro h; cases h
  | cons p rest ih =>
    rcases p with ⟨k0, v0⟩
    intro h
    show (if k0 = k then some v0 else lookupAssoc rest k) ≠ none
    by_cases h0 : k0 = k
    · rw [if_pos h0]; exact fun he => Option.noConfusion he
    · rw [if_neg h0]
      apply ih
      rw [List.any_cons] at h
      simpa [h0] using h

/-- Helper: lookup through the overwrite branch of `dictInsert`. -/
theorem lookupAssoc_map_replace {α : Type} (k : String) (v : α) :
    ∀ (d : List (String × α)) (n : String),
      lookupAssoc (d.map fun p => if p.1 = k then (k, v) else p) n
        = if k = n then Option.map (fun _ => v) (lookupAssoc d k)
          else lookupAssoc d n := by
  intro d
  induction d with
  | nil =>
    intro n
    by_cases h : k = n
    · rw [if_pos h]; rfl
    · rw [if_neg h]; rfl
  | cons p rest ih =>
    rcases p with ⟨k0, v0⟩
    intro n
    rw [List.map_cons]
    by_cases h0 : k0 = k
    · subst h0
      rw [show (if ((k0, v0) : String × α).1 = k0 then ((k0 : String), v)
          else (k0, v0)) = (k0, v) from by rw [if_pos rfl]]
      show (if k0 = n then some v
          else lookupAssoc (rest.map fun p => if p.1 = k0 then (k0, v) else p) n)
        = if k0 = n
          then Option.map (fun _ => v)
            (if k0 = k0 then some v0 else lookupAssoc rest k0)
          else (if k0 = n then some v0 else lookupAssoc rest n)
      by_cases hkn : k0 = n
      · rw [if_pos hkn, if_pos hkn, if_pos rfl]; rfl
      · rw [if_neg hkn, if_neg hkn, if_neg hkn, ih n, if_neg hkn]
    · rw [show (if ((k0, v0) : String × α).1 = k then ((k : String), v)
          else (k0, v0)) = (k0, v0) from by rw [if_neg h0]]
      show (if k0 = n then some v0
          else lookupAssoc (rest.map fun p => if p.1 = k then (k, v) else p) n)
        = if k = n
          then Option.map (fun _ => v)
            (if k0 = k then some v0 else lookupAssoc rest k)
          else (if k0 = n then some v0 else lookupAssoc rest n)
      rw [if_neg h0]
      by_cases hkn : k = n
      · have hk0n : ¬ k0 = n := fun he => h0 (he.trans hkn.symm)
        rw [if_pos hkn, if_neg hk0n, ih n, if_pos hkn]
      · rw [if_neg hkn, ih n, if_neg hkn]

/-- Helper: lookup after a Python dict assignment `d[k] = v`. -/
theorem lookupAssoc_dictInsert {α : Type} (d : List (String × α))
    (k : String) (v : α) (n : String) :
    lookupAssoc (dictInsert d k v) n
      = if k = n then some v else lookupAssoc d n := by
  unfold dictInsert
  by_cases hany : d.any (fun p => p.1 = k)
  · rw [if_pos hany, lookupAssoc_map_replace]
    by_cases hkn : k = n
    · rw [if_pos hkn, if_pos hkn]
      rcases hl : lookupAssoc d k with _ | w
      · exact absurd hl (lookupAssoc_ne_none_of_any d k hany)
      · rfl
    · rw [if_neg hkn, if_neg hkn]
  · rw [if_neg hany, lookupAssoc_append_single]
    have hnone := lookupAssoc_eq_none_of_any_false d k
      (Bool.eq_false_iff.mpr hany)
    by_cases hkn : k = n
    · rw [if_pos hkn, if_pos hkn, ← hkn, hnone]; rfl
    · rw [if_neg hkn, if_neg hkn]
      rcases lookupAssoc d n with _ | w <;> rfl

/-- C5: the size caches have at-most-one-fetch and only-successes
discipline.  A cache hit returns the stored size with no registry lookup and
no state change; a miss followed by a successful lookup stores the size, so
any later lookup of the same name is a pure cache hit with no further
registry fetch; a failed lookup returns 0 and stores nothing, so a later
call retries the registry; cached entries persist across calls; if every
cached entry came from a successful fetch this stays true after any call;
and the two ecosystem caches are disjoint (a pypi-side call never touches
the npm cache and vice versa), so the same name is a distinct key per
ecosystem. -/
theorem size_cache_discipline (env : Env) (st : Caches) (name : String) :
    (∀ s, lookupAssoc st.pypi name = some s →
      getPypiSize env st name = (s, st, 0)) ∧
    (∀ v, lookupAssoc st.pypi name = none → pypiFetch env name = some v →
      getPypiSize env st name
          = (v, { st with pypi := dictInsert st.pypi name v }, 1) ∧
        getPypiSize env { st with pypi := dictInsert st.pypi name v } name
          = (v, { st with pypi := dictInsert st.pypi name v }, 0)) ∧
    (lookupAssoc st.pypi name = none → pypiFetch env name = none →
      getPypiSize env st name = (0, st, 1)) ∧
    (∀ n w, lookupAssoc st.pypi n = some w →
      lookupAssoc (getPypiSize env st name).2.1.pypi n = some w) ∧
    ((∀ n s, lookupAssoc st.pypi n = some s → pypiFetch env n = some s) →
      ∀ n s, lookupAssoc (getPypiSize env st name).2.1.pypi n = some s →
        pypiFetch env n = some s) ∧
    (getPypiSize env st name).2.1.npm = st.npm ∧
    (∀ s, lookupAssoc st.npm name = some s →
      getNpmSize env st name = (s, st, 0)) ∧
    (∀ v, lookupAssoc st.npm name = none → npmFetch env name = some v →
      getNpmSize env st name
          = (v, { st with npm := dictInsert st.npm name v }, 1) ∧
        getNpmSize env { st with npm := dictInsert st.npm name v } name
          = (v, { st with npm := dictInsert st.npm name v }, 0)) ∧
    (lookupAssoc st.npm name = none → npmFetch env name = none →
      getNpmSize env st name = (0, st, 1)) ∧
    (getNpmSize env st name).2.1.pypi = st.pypi := by
  have hhit : ∀ s, lookupAssoc st.pypi name = some s →
      getPypiSize env st name = (s, st, 0) := by
    intro s h; unfold getPypiSize; rw [h]
  have hmiss : ∀ v, lookupAssoc st.pypi name = none →
      pypiFetch env name = some v →
      getPypiSize env st name
        = (v, { st with pypi := dictInsert st.pypi name v }, 1) := by
    intro v h hf; unfold getPypiSize; rw [h, hf]
  have hfail : lookupAssoc st.pypi name = none → pypiFetch env name = none →
      getPypiSize env st name = (0, st, 1) := by
    intro h hf; unfold getPypiSize; rw [h, hf]
  have hhitN : ∀ s, lookupAssoc st.npm name = some s →
      getNpmSize env st name = (s, st, 0) := by
    intro s h; unfold getNpmSize; rw [h]
  have hmissN : ∀ v, lookupAssoc st.npm name = none →
      npmFetch env name = some v →
      getNpmSize env st name
        = (v, { st with npm := dictInsert st.npm name v }, 1) := by
    intro v h hf; unfold getNpmSize; rw [h, hf]
  have hfailN : lookupAssoc st.npm name = none → npmFetch env name = none →
      getNpmSize env st name = (0, st, 1) := by
    intro h hf; unfold getNpmSize; rw [h, hf]
  refine ⟨hhit, ?_, hfail, ?_, ?_, ?_, hhitN, ?_, hfailN, ?_⟩
  · intro v h hf
    refine ⟨hmiss v h hf, ?_⟩
    have hl : lookupAssoc (dictInsert st.pypi name v) name = some v := by
      rw [lookupAssoc_dictInsert, if_pos rfl]
    unfold getPypiSize
    rw [show ({ st with pypi := dictInsert st.pypi name v } : Caches).pypi
        = dictInsert st.pypi name v from rfl, hl]
  · intro n w h
    rcases hl : lookupAssoc st.pypi name with _ | s
    · rcases hf : pypiFetch env name with _ | v
      · rw [hfail hl hf]; exact h
      · rw [hmiss v hl hf]
        show lookupAssoc (dictInsert st.pypi name v) n = some w
        rw [lookupAssoc_dictInsert,
          if_neg (fun he => by rw [← he] at h; rw [h] at hl; cases hl)]
        exact h
    · rw [hhit s hl]; exact h
  · intro hsound n s h
    rcases hl : lookupAssoc st.pypi name with _ | s0
    · rcases hf : pypiFetch env name with _ | v
      · rw [hfail hl hf] at h; exact hsound n s h
      · rw [hmiss v hl hf] at h
        have h2 : lookupAssoc (dictInsert st.pypi name v) n = some s := h
        rw [lookupAssoc_dictInsert] at h2
        by_cases he : name = n
        · rw [if_pos he] at h2
          rcases h2 with ⟨⟩
          rw [← he]
          exact hf
        · rw [if_neg he] at h2; exact hsound n s h2
    · rw [hhit s0 hl] at h; exact hsound n s h
  · rcases hl : lookupAssoc st.pypi name with _ | s
    · rcases hf : pypiFetch env name with _ | v
      · rw [hfail hl hf]
      · rw [hmiss v hl hf]
    · rw [hhit s hl]
  · intro v h hf
    refine ⟨hmissN v h hf, ?_⟩
    have hl : lookupAssoc (dictInsert st.npm name v) name = some v := by
      rw [lookupAssoc_dictInsert, if_pos rfl]
    unfold getNpmSize
    rw [show ({ st with npm := dictInsert st.npm name v } : Caches).npm
        = dictInsert st.npm name v from rfl, hl]
  · rcases hl : lookupAssoc st.npm name with _ | s
    · rcases hf : npmFetch env name with _ | v
      · rw [hfailN hl hf]
      · rw [hmissN v hl hf]
    · rw [hhitN s hl]

/-- C5 witness: with an environment whose PyPI lookup finds a 42-byte wheel,
a first resolution of "flask" from the empty cache issues exactly one
registry fetch and stores the size, and a second resolution returns the
cached 42 with zero registry fetches. -/
theorem size_cache_discipline_witness :
    getPypiSize envPypi42 emptyCaches "flask"
      = (42, ⟨[("flask", 42)], []⟩, 1) ∧
    getPypiSize envPypi42 ⟨[("flask", 42)], []⟩ "flask"
      = (42, ⟨[("flask", 42)], []⟩, 0) :=
  (size_cache_discipline envPypi42 emptyCaches "flask").2.1 42 rfl rfl

/-- Helper for C6: lookup in a Python `{**a, **b}` merge (for `b` without
duplicate keys, as produced by `json.load`) prefers the `b` entry. -/
theorem lookupAssoc_mergeDicts :
    ∀ (b a : List (String × String)) (k : String),
      (b.map Prod.fst).Nodup →
      lookupAssoc (mergeDicts a b) k
        = optOr (lookupAssoc b k) (lookupAssoc a k) := by
  intro b
  induction b with
  | nil => intro a k _; rfl
  | cons p rest ih =>
    rcases p with ⟨k0, v0⟩
    intro a k hnd
    rw [List.map_cons] at hnd
    have hk0 : k0 ∉ rest.map Prod.fst := (List.nodup_cons.mp hnd).1
    have hnd2 : (rest.map Prod.fst).Nodup := (List.nodup_cons.mp hnd).2
    show lookupAssoc (mergeDicts (dictInsert a k0 v0) rest) k
      = optOr (if k0 = k then some v0 else lookupAssoc rest k)
          (lookupAssoc a k)
    rw [ih _ k hnd2, lookupAssoc_dictInsert]
    by_cases h0 : k0 = k
    · rw [if_pos h0, if_pos h0, ← h0,
        lookupAssoc_eq_none_of_not_mem rest k0 hk0]
      rfl
    · rw [if_neg h0, if_neg h0]

/-- C6: merging node dependencies and devDependencies is last-write-wins
(a devDependencies entry overwrites a same-named dependencies entry), so
dependencies a-caret-1.0.0 merged with devDependencies a-2.0.0 yields
exactly one record for "a" carrying version "2.0.0"; and each version
string has its maximal non-digit prefix stripped to a bare version. -/
theorem node_merge_and_strip (env : Env) (st : Caches) (s : String)
    (b a : List (String × String)) (k v : String) (pre w : List Char) :
    mergeDicts [("a", "^1.0.0")] [("a", "2.0.0")] = [("a", "2.0.0")] ∧
    ((b.map Prod.fst).Nodup → lookupAssoc b k = some v →
      lookupAssoc (mergeDicts a b) k = some v) ∧
    (env.npmAudit "a" = some s →
      analyzeNodeRequirements env st
          (ParseOutcome.parsed ⟨[("a", "^1.0.0")], [("a", "2.0.0")]⟩)
        = ((getNpmSize env st "a").2.1,
           Except.ok [⟨"a", (getNpmSize env st "a").1,
             isPaidPackage "a" "node", "2.0.0",
             getNpmPackageDescription env "a", getLatestNpmVersion env "a",
             (pyStrip s.data).asString⟩])) ∧
    ((∀ c ∈ pre, (('0' ≤ c && c ≤ '9')) = false) →
      (∀ c, w.head? = some c → (('0' ≤ c && c ≤ '9')) = true) →
      cleanVersion (pre ++ w) = w) := by
  refine ⟨by decide, ?_, ?_, ?_⟩
  · intro hnd hl
    rw [lookupAssoc_mergeDicts b a k hnd, hl]
    rfl
  · intro hs
    have hcs : checkSecurityVulnerabilities env "a" "node"
        = Except.ok (pyStrip s.data).asString := by
      unfold checkSecurityVulnerabilities
      rw [if_neg (show ¬(("node" : String) = "python") from by decide),
        if_pos rfl, hs]
    show resolveNodeList env st [("a", "2.0.0")] = _
    show (match checkSecurityVulnerabilities env "a" "node" with
      | .error e => ((getNpmSize env st "a").2.1, Except.error e)
      | .ok vulnerabilities =>
        match resolveNodeList env (getNpmSize env st "a").2.1
            ([] : List (String × String)) with
        | (st2, .ok pkgs) =>
          (st2, Except.ok (⟨"a", (getNpmSize env st "a").1,
            isPaidPackage "a" "node", (cleanVersion "2.0.0".data).asString,
            getNpmPackageDescription env "a", getLatestNpmVersion env "a",
            vulnerabilities⟩ :: pkgs))
        | (st2, .error e) => (st2, Except.error e))
      = ((getNpmSize env st "a").2.1,
         Except.ok [⟨"a", (getNpmSize env st "a").1,
           isPaidPackage "a" "node", "2.0.0",
           getNpmPackageDescription env "a", getLatestNpmVersion env "a",
           (pyStrip s.data).asString⟩])
    rw [hcs]
    rfl
  · intro hpre hw
    induction pre with
    | nil =>
      rcases w with _ | ⟨c, cs⟩
      · rfl
      · have hc := hw c rfl
        show List.dropWhile _ (c :: cs) = c :: cs
        rw [List.dropWhile_cons, hc]
        rfl
    | cons c p ih =>
      have hc : (('0' ≤ c && c ≤ '9')) = false :=
        hpre c (List.mem_cons_self c p)
      show List.dropWhile _ (c :: (p ++ w)) = w
      rw [List.dropWhile_cons, hc]
      exact ih (fun d hd => hpre d (List.mem_cons_of_mem c hd))

/-- C6 witness: the node manifest with dependencies a-caret-1.0.0 and
devDependencies a-2.0.0, analyzed in the all-failing environment, yields
exactly one record named "a" with version "2.0.0"; lookup in the merged
dict gives the dev version; and stripping the non-digit prefix of
caret-1.0.0 gives 1.0.0. -/
theorem node_merge_and_strip_witness :
    lookupAssoc (mergeDicts [("a", "^1.0.0")] [("a", "2.0.0")]) "a"
      = some "2.0.0" ∧
    analyzeNodeRequirements envEmpty emptyCaches
        (ParseOutcome.parsed ⟨[("a", "^1.0.0")], [("a", "2.0.0")]⟩)
      = (emptyCaches,
         Except.ok [⟨"a", 0, false, "2.0.0", "No description available",
           "", ""⟩]) ∧
    cleanVersion ("^".data ++ "1.0.0".data) = "1.0.0".data :=
  ⟨(node_merge_and_strip envEmpty emptyCaches "" [("a", "2.0.0")]
      [("a", "^1.0.0")] "a" "2.0.0" [] []).2.1 (by decide) (by decide),
   (node_merge_and_strip envEmpty emptyCaches "" [] [] "" "" [] []).2.2.1 rfl,
   (node_merge_and_strip envEmpty emptyCaches "" [] [] "" "" "^".data
      "1.0.0".data).2.2.2 (by decide)
     (by
       intro c hc
       have h1 : ('1' : Char) = c := Option.some.inj
         ((show ("1.0.0".data.head? = some '1') from rfl).symm.trans hc)
       rw [← h1]
       decide)⟩

/-- Helper for C10: behaviour of the stripped-line dispatch of
`parsePythonLine` on an arbitrary stripped line `s`. -/
theorem parsePythonStripped_cases (s : List Char) :
    (∀ c cs, s = c :: cs → isNameChar c = true →
      ((if s.isEmpty then none
        else if s.head? = some '#' then none
        else pyMatchLine s) : Option (String × String)).map Prod.fst
        = some ((s.takeWhile isNameChar).asString)) ∧
    (((if s.isEmpty then none
        else if s.head? = some '#' then none
        else pyMatchLine s) : Option (String × String)) = none ↔
      ∀ c cs, s = c :: cs → isNameChar c = false) := by
  rcases s with _ | ⟨c, cs⟩
  · constructor
    · intro c cs h; cases h
    · constructor
      · intro _ c cs h; cases h
      · intro _; rfl
  · by_cases hc : c = '#'
    · subst hc
      constructor
      · intro c0 cs0 h hname
        injection h with h1 h2
        rw [← h1] at hname
        cases hname
      · constructor
        · intro _ c0 cs0 h
          injection h with h1 h2
          rw [← h1]
          rfl
        · intro _; rfl
    · have hmain : ((if (c :: cs : List Char).isEmpty then none
          else if (c :: cs : List Char).head? = some '#' then none
          else pyMatchLine (c :: cs)) : Option (String × String))
          = pyMatchLine (c :: cs) := by
        rw [if_neg (show ¬((c :: cs : List Char).head? = some '#') from
          fun he => hc (Option.some.inj he))]
        rfl
      by_cases hn : isNameChar c = true
      · have hsome : (pyMatchLine (c :: cs)).map Prod.fst
            = some (((c :: cs).takeWhile isNameChar).asString) := by
          simp only [pyMatchLine, List.takeWhile_cons, hn, if_true,
            List.isEmpty_cons, Bool.false_eq_true, if_false]
          split <;> rfl
        constructor
        · intro c0 cs0 h hname
          rw [hmain]
          exact hsome
        · rw [hmain]
          constructor
          · intro h0
            rw [h0] at hsome
            cases hsome
          · intro hall
            have := hall c cs rfl
            rw [hn] at this
            cases this
      · have hnf : isNameChar c = false := by
          rcases Bool.eq_false_or_eq_true (isNameChar c) with h | h
          · exact absurd h hn
          · exact h
        have hnone : pyMatchLine (c :: cs) = none := by
          simp only [pyMatchLine, List.takeWhile_cons, hnf,
            Bool.false_eq_true, if_false, List.isEmpty_nil, if_true]
        constructor
        · intro c0 cs0 h hname
          injection h with h1 h2
          rw [← h1] at hname
          rw [hnf] at hname
          cases hname
        · rw [hmain, hnone]
          constructor
          · intro _ c0 cs0 h
            injection h with h1 h2
            rw [← h1]
            exact hnf
          · intro _; rfl

/-- C10: python-requirements pattern matching is anchored only at the start
of the stripped line: a line whose stripped form begins with a name
character produces a record whose name is the maximal leading run of name
characters with any trailing text ignored; a line is skipped exactly when
its stripped form does not begin with a name character (blank lines,
comment lines — the comment marker is not a name character — and lines
starting with any other non-name character); concretely,
"flask==2.0.1 trailing-junk" yields name "flask" with constraint "2.0.1",
and "flask==" yields name "flask" with empty constraint. -/
theorem python_parse_anchoring (line : List Char) :
    (∀ c cs, pyStrip line = c :: cs → isNameChar c = true →
      (parsePythonLine line).map Prod.fst
        = some (((pyStrip line).takeWhile isNameChar).asString)) ∧
    (parsePythonLine line = none ↔
      ∀ c cs, pyStrip line = c :: cs → isNameChar c = false) ∧
    parsePythonLine "flask==2.0.1 trailing-junk".data
      = some ("flask", "2.0.1") ∧
    parsePythonLine "flask==".data = some ("flask", "") := by
  refine ⟨?_, ?_, by decide, by decide⟩
  · intro c cs h hname
    exact (parsePythonStripped_cases (pyStrip line)).1 c cs h hname
  · exact (parsePythonStripped_cases (pyStrip line)).2

/-- C10 witness: the line "flask==2.0.1 junk" starts with the name
character f, and its parse indeed yields the name "flask" (the maximal
leading run of name characters). -/
theorem python_parse_anchoring_witness :
    (parsePythonLine "flask==2.0.1 junk".data).map Prod.fst
      = some (((pyStrip "flask==2.0.1 junk".data).takeWhile
        isNameChar).asString) :=
  (python_parse_anchoring "flask==2.0.1 junk".data).1 'f'
    "lask==2.0.1 junk".data (by decide) (by decide)

/-- Helper: the fuelled binary logarithm brackets its argument between
consecutive powers of two, given enough fuel. -/
theorem log2Go_spec :
    ∀ (f m : Nat), 1 ≤ m → m ≤ f →
      2 ^ log2Go f m ≤ m ∧ m < 2 ^ (log2Go f m + 1) := by
  intro f
  induction f with
  | zero => intro m h1 h2; omega
  | succ f ih =>
    intro m h1 h2
    by_cases hm : m ≤ 1
    · have : m = 1 := by omega
      subst this
      show 2 ^ log2Go (f + 1) 1 ≤ 1 ∧ 1 < 2 ^ (log2Go (f + 1) 1 + 1)
      rw [show log2Go (f + 1) 1 = 0 from by unfold log2Go; rw [if_pos le_rfl]]
      norm_num
    · have hm2 : 2 ≤ m := by omega
      have hrec : log2Go (f + 1) m = log2Go f (m / 2) + 1 := by
        show (if m ≤ 1 then 0 else log2Go f (m / 2) + 1)
          = log2Go f (m / 2) + 1
        rw [if_neg hm]
      have hd1 : 1 ≤ m / 2 := by omega
      have hd2 : m / 2 ≤ f := by omega
      obtain ⟨ha, hb⟩ := ih (m / 2) hd1 hd2
      rw [hrec]
      constructor
      · rw [pow_succ]
        omega
      · rw [pow_succ]
        omega

/-- Helper: `natLog2` brackets a positive natural between consecutive
powers of two. -/
theorem natLog2_spec (n : Nat) (h : 1 ≤ n) :
    2 ^ natLog2 n ≤ n ∧ n < 2 ^ (natLog2 n + 1) :=
  log2Go_spec n n h le_rfl

/-- Helper: round-to-nearest lands within half a spacing of its input. -/
theorem roundNearestEven_le_bounds (u s : Nat) (hs : 1 ≤ s) :
    u ≤ roundNearestEven u s + 2 ^ (s - 1)
      ∧ roundNearestEven u s ≤ u + 2 ^ (s - 1) := by
  have hs0 : ¬(s = 0) := by omega
  have hdm : 2 ^ s * (u / 2 ^ s) + u % 2 ^ s = u := Nat.div_add_mod u (2 ^ s)
  have hmod : u % 2 ^ s < 2 ^ s := Nat.mod_lt _ (by positivity)
  have h2p : 2 ^ (s - 1) * 2 = 2 ^ s := by rw [← pow_succ]; congr 1; omega
  have e2 : 2 ^ s * (u / 2 ^ s) = u / 2 ^ s * 2 ^ s := Nat.mul_comm _ _
  have e1 : (u / 2 ^ s + 1) * 2 ^ s = u / 2 ^ s * 2 ^ s + 2 ^ s := by ring
  unfold roundNearestEven
  rw [if_neg hs0]
  by_cases hlt : u % 2 ^ s < 2 ^ (s - 1)
  · rw [if_pos hlt]; omega
  · rw [if_neg hlt]
    by_cases hgt : 2 ^ (s - 1) < u % 2 ^ s
    · rw [if_pos hgt]; omega
    · rw [if_neg hgt]
      by_cases hpar : u / 2 ^ s % 2 = 0
      · rw [if_pos hpar]; omega
      · rw [if_neg hpar]; omega

/-- Helper: a multiple of the spacing strictly within half a spacing of the
input is the rounding result. -/
theorem roundNearestEven_eq_of_near (u s m : Nat) (hs : 1 ≤ s)
    (hn1 : u < m * 2 ^ s + 2 ^ (s - 1))
    (hn2 : m * 2 ^ s < u + 2 ^ (s - 1)) :
    roundNearestEven u s = m * 2 ^ s := by
  have hs0 : ¬(s = 0) := by omega
  have hdm : 2 ^ s * (u / 2 ^ s) + u % 2 ^ s = u := Nat.div_add_mod u (2 ^ s)
  have hmod : u % 2 ^ s < 2 ^ s := Nat.mod_lt _ (by positivity)
  have h2p : 2 ^ (s - 1) * 2 = 2 ^ s := by rw [← pow_succ]; congr 1; omega
  have e2 : 2 ^ s * (u / 2 ^ s) = u / 2 ^ s * 2 ^ s := Nat.mul_comm _ _
  have e1 : (u / 2 ^ s + 1) * 2 ^ s = u / 2 ^ s * 2 ^ s + 2 ^ s := by ring
  unfold roundNearestEven
  rw [if_neg hs0]
  by_cases hlt : u % 2 ^ s < 2 ^ (s - 1)
  · rw [if_pos hlt]
    have hq : m = u / 2 ^ s := by
      have a1 : m * 2 ^ s < (u / 2 ^ s + 1) * 2 ^ s := by omega
      have a2 : u / 2 ^ s * 2 ^ s < (m + 1) * 2 ^ s := by
        have e3 : (m + 1) * 2 ^ s = m * 2 ^ s + 2 ^ s := by ring
        omega
      have b1 : m < u / 2 ^ s + 1 :=
        lt_of_mul_lt_mul_right a1 (Nat.zero_le _)
      have b2 : u / 2 ^ s < m + 1 :=
        lt_of_mul_lt_mul_right a2 (Nat.zero_le _)
      omega
    rw [hq]
  · rw [if_neg hlt]
    by_cases hgt : 2 ^ (s - 1) < u % 2 ^ s
    · rw [if_pos hgt]
      have hq : m = u / 2 ^ s + 1 := by
        have a1 : u / 2 ^ s * 2 ^ s < m * 2 ^ s := by omega
        have a2 : m * 2 ^ s < (u / 2 ^ s + 1 + 1) * 2 ^ s := by
          have e3 : (u / 2 ^ s + 1 + 1) * 2 ^ s
              = u / 2 ^ s * 2 ^ s + 2 ^ s + 2 ^ s := by ring
          omega
        have b1 : u / 2 ^ s < m :=
          lt_of_mul_lt_mul_right a1 (Nat.zero_le _)
        have b2 : m < u / 2 ^ s + 1 + 1 :=
          lt_of_mul_lt_mul_right a2 (Nat.zero_le _)
        omega
      rw [hq]
    · exfalso
      have a1 : u / 2 ^ s * 2 ^ s < m * 2 ^ s := by omega
      have a2 : m * 2 ^ s < (u / 2 ^ s + 1) * 2 ^ s := by omega
      have b1 : u / 2 ^ s < m :=
        lt_of_mul_lt_mul_right a1 (Nat.zero_le _)
      have b2 : m < u / 2 ^ s + 1 :=
        lt_of_mul_lt_mul_right a2 (Nat.zero_le _)
      omega

/-- Helper for C3: for totals up to `2 ^ 51` bytes, the double-precision
`int(T * 0.15)` of the source agrees with exact flooring of the rational
`3 * T / 20`. -/
theorem pyOverheadNat_eq_floor (T : Nat) (hT : T ≤ 2 ^ 51) :
    pyOverheadNat T = 3 * T / 20 := by
  have hTsmall : T < 2 ^ 53 := lt_of_le_of_lt hT (by norm_num)
  unfold pyOverheadNat
  rw [show flD T = T from by unfold flD; rw [if_pos hTsmall]]
  rcases Nat.lt_or_ge T 2 with h2 | h2
  · interval_cases T
    · rfl
    · rfl
  · set u := T * double015Num with hu
    have hum : 2 ^ 53 ≤ u := by
      have h1 : 2 * double015Num ≤ u := by
        rw [hu]; exact Nat.mul_le_mul_right _ h2
      have h2v : (2 : ℕ) ^ 53 ≤ 2 * double015Num := by
        unfold double015Num; norm_num
      omega
    have hu1 : 1 ≤ u := by
      have : (1 : ℕ) ≤ 2 ^ 53 := by norm_num
      omega
    obtain ⟨hElow, hEup⟩ := natLog2_spec u hu1
    set k := natLog2 u with hk
    have hk53 : 53 ≤ k := by
      by_contra h
      push_neg at h
      have : (2 : ℕ) ^ (k + 1) ≤ 2 ^ 53 :=
        Nat.pow_le_pow_right (by norm_num) (by omega)
      omega
    have hkup : k ≤ 103 := by
      have hub : u < 2 ^ 104 := by
        have h1 : u ≤ 2 ^ 51 * double015Num := by
          rw [hu]; exact Nat.mul_le_mul_right _ hT
        have h2v : (2 : ℕ) ^ 51 * double015Num < 2 ^ 104 := by
          unfold double015Num; norm_num
        omega
      by_contra h
      push_neg at h
      have : (2 : ℕ) ^ 104 ≤ 2 ^ k :=
        Nat.pow_le_pow_right (by norm_num) (by omega)
      omega
    rw [show flD u = roundNearestEven u (k - 52) from by
      unfold flD; rw [if_neg (Nat.not_lt.mpr hum)]]
    set s := k - 52 with hs_def
    have hs1 : 1 ≤ s := by omega
    have hs_minus : s - 1 = k - 53 := by omega
    obtain ⟨hb1, hb2⟩ := roundNearestEven_le_bounds u s hs1
    rw [hs_minus] at hb1 hb2
    have hE1 : 2 ^ (k - 53) * 2 ^ 53 = 2 ^ k := by
      rw [← pow_add]; congr 1; omega
    have hE2 : (2 : ℕ) ^ (k + 1) = 2 * 2 ^ k := by rw [pow_succ]; ring
    have hcen : 20 * u + 4 * T = T * 108086391056891904 := by
      rw [hu]; unfold double015Num; ring
    set N := 3 * T / 20 with hN
    have hNdm : 20 * N + 3 * T % 20 = 3 * T := Nat.div_add_mod (3 * T) 20
    set j := 3 * T % 20 with hj
    have hjlt : j < 20 := Nat.mod_lt _ (by norm_num)
    set E := 2 ^ (k - 53) with hEdef
    have hEu : E * 9007199254740992 ≤ u := by
      have : E * 2 ^ 53 ≤ u := hE1 ▸ hElow
      have hlit : (9007199254740992 : ℕ) = 2 ^ 53 := by norm_num
      omega
    have hEu2 : u < E * 18014398509481984 := by
      have h1 : u < 2 * 2 ^ k := hE2 ▸ hEup
      have h3 : E * 18014398509481984 = 2 * (E * 9007199254740992) := by ring
      have h4 : E * 9007199254740992 = 2 ^ k := by
        have hlit : (9007199254740992 : ℕ) = 2 ^ 53 := by norm_num
        rw [hlit, hEdef, hE1]
      omega
    have hTlit : T ≤ 2251799813685248 := by
      have : (2251799813685248 : ℕ) = 2 ^ 51 := by norm_num
      omega
    have hEpos : 1 ≤ E := Nat.one_le_two_pow
    have h255 : (36028797018963968 : ℕ) = 2 ^ 55 := by norm_num
    rcases Nat.eq_zero_or_pos j with hj0 | hjpos
    · have h20T : 3 * T = 20 * N := by omega
      have hTdvd : T % 20 = 0 := by omega
      set a := T / 20 with ha
      have hTa : T = 20 * a := by omega
      have hNa : N = 3 * a := by omega
      have ha1 : 1 ≤ a := by omega
      have hMu : u + 4 * a = N * 36028797018963968 := by omega
      have h4aE : 4 * a < E := by omega
      have hMform : N * 2 ^ (55 - s) * 2 ^ s = N * 36028797018963968 := by
        rw [mul_assoc, ← pow_add, show 55 - s + s = 55 from by omega, ← h255]
      have hD := roundNearestEven_eq_of_near u s (N * 2 ^ (55 - s)) hs1
        (by rw [hMform, hs_minus]; omega)
        (by rw [hMform, hs_minus]; omega)
      rw [hD, mul_assoc, ← pow_add, show 55 - s + s = 55 from by omega]
      exact Nat.mul_div_cancel _ (by positivity)
    · set R := roundNearestEven u s with hR
      have hNlow : N * 36028797018963968 ≤ R := by omega
      have hNup : R < (N + 1) * 36028797018963968 := by
        have e : (N + 1) * 36028797018963968
            = N * 36028797018963968 + 36028797018963968 := by ring
        omega
      rw [show (2 : ℕ) ^ 55 = 36028797018963968 from by norm_num]
      omega

set_option maxRecDepth 10000 in
/-- C3 counterexample: for a single package of 8000000000000013 bytes in
the python ecosystem, the estimate's full field is NOT
100MiB + T + floor(0.15 * T): the source computes the overhead as
`int(T * 0.15)` in IEEE-754 double arithmetic, which rounds this product up
to 1200000000000002 while exact flooring of the rational gives
1200000000000001. -/
theorem estimate_overhead_counterexample :
    ¬((estimateDockerSizes [{ name := "p", size := 8000000000000013 }]
        "python").map (fun e => e.full)
      = some (100 * 1024 * 1024 + 8000000000000013
          + 3 * 8000000000000013 / 20)) := by decide

/-- C3 amended: for every package list and the python ecosystem, the
estimate always satisfies full - slim = 60MiB exactly (the same total and
overhead enter every variant); and each variant equals
base[variant] + T + overhead where the overhead is the double-precision
`int(T * 0.15)` of the source, which equals exact flooring of 0.15 * T
whenever the sizes are non-negative and the total T is at most 2^51 bytes
(it can differ beyond that, see the counterexample). -/
theorem estimate_python_formula (packages : List PackageInfo)
    (est : DockerSizeInfo)
    (he : estimateDockerSizes packages "python" = some est) :
    est.full - est.slim = 60 * 1024 * 1024 ∧
    ((∀ p ∈ packages, 0 ≤ p.size) →
      totalSize packages ≤ 2 ^ 51 →
      est.full = 100 * 1024 * 1024 + totalSize packages
          + ((3 * (totalSize packages).toNat / 20 : ℕ) : Int) ∧
      est.slim = 40 * 1024 * 1024 + totalSize packages
          + ((3 * (totalSize packages).toNat / 20 : ℕ) : Int) ∧
      est.alpine = 15 * 1024 * 1024 + totalSize packages
          + ((3 * (totalSize packages).toNat / 20 : ℕ) : Int)) := by
  unfold estimateDockerSizes at he
  rw [show baseSizes "python"
      = some ⟨100 * 1024 * 1024, 40 * 1024 * 1024, 15 * 1024 * 1024⟩
      from rfl] at he
  rw [Option.map_some'] at he
  obtain rfl : est = _ := (Option.some.inj he).symm
  rw [show totalSize packages = (packages.map (fun p => p.size)).sum
    from rfl]
  set T := (packages.map (fun p => p.size)).sum with hTdef
  constructor
  · show (100 * 1024 * 1024 + T + pyInt015 T)
      - (40 * 1024 * 1024 + T + pyInt015 T) = 60 * 1024 * 1024
    ring
  · intro hpos hbound
    have hT0 : 0 ≤ T := by
      apply List.sum_nonneg
      intro x hx
      rcases List.mem_map.mp hx with ⟨p, hp, hpx⟩
      exact hpx ▸ hpos p hp
    have hTn : T.toNat ≤ 2 ^ 51 := by
      have h1 : T ≤ 2251799813685248 := by norm_num at hbound; exact hbound
      have h2 : (2 : ℕ) ^ 51 = 2251799813685248 := by norm_num
      omega
    have hov : pyInt015 T = ((3 * T.toNat / 20 : ℕ) : Int) := by
      unfold pyInt015
      rw [if_pos hT0, pyOverheadNat_eq_floor T.toNat hTn]
    refine ⟨?_, ?_, ?_⟩
    · show (100 * 1024 * 1024 : Int) + T + pyInt015 T
        = 100 * 1024 * 1024 + T + ((3 * T.toNat / 20 : ℕ) : Int)
      rw [hov]
    · show (40 * 1024 * 1024 : Int) + T + pyInt015 T
        = 40 * 1024 * 1024 + T + ((3 * T.toNat / 20 : ℕ) : Int)
      rw [hov]
    · show (15 * 1024 * 1024 : Int) + T + pyInt015 T
        = 15 * 1024 * 1024 + T + ((3 * T.toNat / 20 : ℕ) : Int)
      rw [hov]

/-- C3 witness: a single 20-byte package gives the python estimate
104857623 / 41943063 / 15728663; full minus slim is exactly 60MiB and the
full size is exactly 100MiB + 20 + floor(0.15 * 20). -/
theorem estimate_python_formula_witness :
    ((104857623 : Int) - 41943063 = 60 * 1024 * 1024) ∧
    ((104857623 : Int) = 100 * 1024 * 1024 + 20
        + ((3 * (20 : Int).toNat / 20 : ℕ) : Int)) := by
  have h := estimate_python_formula [{ name := "a", size := 20 }]
    ⟨104857623, 41943063, 15728663⟩ (by decide)
  refine ⟨h.1, ?_⟩
  exact (h.2
    (by intro p hp; rw [List.mem_singleton] at hp; subst hp; decide)
    (by decide)).1

/-- C9 witness: a single 10-byte package in the python ecosystem gives an
estimate of 104857611 / 41943051 / 15728651 bytes, each at least the
corresponding base size. -/
theorem estimate_ge_base_witness :
    (⟨100 * 1024 * 1024, 40 * 1024 * 1024, 15 * 1024 * 1024⟩ : BaseSizes).full
      ≤ (⟨104857611, 41943051, 15728651⟩ : DockerSizeInfo).full ∧
    (⟨100 * 1024 * 1024, 40 * 1024 * 1024, 15 * 1024 * 1024⟩ : BaseSizes).slim
      ≤ (⟨104857611, 41943051, 15728651⟩ : DockerSizeInfo).slim ∧
    (⟨100 * 1024 * 1024, 40 * 1024 * 1024, 15 * 1024 * 1024⟩ : BaseSizes).alpine
      ≤ (⟨104857611, 41943051, 15728651⟩ : DockerSizeInfo).alpine :=
  estimate_ge_base [{ name := "a", size := 10 }] "python" _ _ rfl (by decide)
    (by intro p hp; rw [List.mem_singleton] at hp; subst hp; decide)
